import Mathlib

set_option maxRecDepth 8000

/-!
Shallow embedding of the appointment-scheduling core of `src/server.js`
(the second, later iteration of the file, which is the one the
specification describes): the interval conflict checker `hasConflict`,
the free-slot finder `findFreeSlots`, the appointment lifecycle
operations `createAppointment` / `cancelAppointment` /
`rescheduleAppointment`, the calendar reconciler
`syncCalendarForBusiness`, and the directive-interpretation phase of
`processWithAI`.

Times are modelled as integer milliseconds since the epoch (JS
`Date.getTime()`); the model's local timezone is UTC (a fixed-offset
zone with no DST), so `setHours`/`getHours` are plain floor-division
arithmetic on the day length.  Database rows are lists of structures;
the external collaborators (Supabase, Google Calendar, Twilio, OpenAI)
are modelled by explicit inputs (the fetched event list) and explicit
effect outputs (calendar operations, owner notifications).  Storage
never fails in the model, so the error branches that log and return are
not reachable; timestamp bookkeeping columns (`created_at`,
`confirmed_at`, `cancelled_at`, `notes`, `last_sync_time`) are not
modelled because no verified claim mentions them.
-/

/-- JS `x || 30` on the integer duration columns: `null` and `0` are falsy
and both are modelled by the `Nat` value `0`. -/
def jsOr30 (d : Nat) : Nat := if d = 0 then 30 else d

/-- JS truthiness of a nullable string column: `null` and `""` are falsy. -/
def jsTruthy : Option String → Bool
  | none => false
  | some s => !(s == "")

/-- JS `x || y` on nullable strings (used by `customerName || old.customer_name`). -/
def jsOrStr (x y : Option String) : Option String :=
  if jsTruthy x then x else y

/-- JS `x || "d"` where the fallback is a string literal
(used by `event.summary || 'תור מיומן'`). -/
def jsOrStrD (x : Option String) (d : String) : String :=
  match x with
  | some s => if s = "" then d else s
  | none => d

/-- A row of the `appointments` table, with the columns the verified
claims depend on. -/
structure Appointment where
  id : String
  business_id : Nat
  customer_phone : String
  customer_name : Option String
  appointment_time : Int
  duration : Nat
  status : String
  google_event_id : Option String
deriving Repr, DecidableEq

/-- A row of the `businesses` table, with the columns the scheduling core
reads. -/
structure Business where
  id : Nat
  name : String
  appointment_duration : Nat
  working_hours : String
  owner_phone : Option String
  calendar_connected : Bool
  google_calendar_token : Option String
deriving Repr, DecidableEq

/-- Status test used by every `.in('status', ['pending', 'confirmed'])`
filter in the source. -/
def isActive (a : Appointment) : Bool :=
  decide (a.status = "pending") || decide (a.status = "confirmed")

/-- The query of `hasConflict` (`server.js` lines 1017-1023): active
appointments of the business whose `appointment_time` lies within two
hours (7200000 ms) of the candidate interval `[startTime, endTime]`. -/
def conflictWindowFetch (store : List Appointment) (businessId : Nat)
    (startTime endTime : Int) : List Appointment :=
  store.filter fun a =>
    decide (a.business_id = businessId) && isActive a &&
    decide (startTime - 7200000 ≤ a.appointment_time) &&
    decide (a.appointment_time ≤ endTime + 7200000)

/-- `hasConflict(businessId, requestedTime, duration)` (`server.js`
lines 1011-1047).  `endTime = startTime + duration*60000`; each fetched
appointment's end uses `appt.duration || 30`; the overlap test is
`startTime < apptEnd && endTime > apptStart`, and the loop returns true
on the first overlapping appointment.  The storage-error branch (which
logs and returns false) is unreachable in the pure model. -/
def hasConflict (store : List Appointment) (businessId : Nat)
    (requestedTime : Int) (duration : Nat) : Bool :=
  let startTime := requestedTime
  let endTime := startTime + (duration : Int) * 60000
  (conflictWindowFetch store businessId startTime endTime).any fun appt =>
    let apptStart := appt.appointment_time
    let apptEnd := apptStart + (jsOr30 appt.duration : Int) * 60000
    decide (startTime < apptEnd) && decide (endTime > apptStart)

/-- External calendar operations emitted by the lifecycle functions
(best-effort side effects on the Google Calendar collaborator). -/
inductive CalendarOp where
  | insert (start : Int) (duration : Nat)
  | delete (eventId : String)
  | patch (eventId : String) (start : Int) (duration : Nat)
deriving Repr, DecidableEq

/-- `addToCalendar` (lines 1159-1187): emits an event-insert only when the
business has a (truthy) token and is calendar-connected.  The write-back
of the externally assigned event id onto the new row is not modelled
(its value comes from the external service); the inserted row keeps
`google_event_id = none`. -/
def addToCalendarOps (business : Business) (appt : Appointment) : List CalendarOp :=
  if jsTruthy business.google_calendar_token && business.calendar_connected then
    [CalendarOp.insert appt.appointment_time appt.duration]
  else []

/-- `deleteFromCalendar` (lines 1189-1200): guarded on a truthy token and
a truthy event id. -/
def deleteFromCalendarOps (business : Business) (eventId : Option String) : List CalendarOp :=
  if jsTruthy business.google_calendar_token && jsTruthy eventId then
    [CalendarOp.delete (eventId.getD "")]
  else []

/-- `updateCalendar` (lines 1202-1221): guarded on a truthy token and a
truthy event id. -/
def updateCalendarOps (business : Business) (eventId : Option String)
    (newStart : Int) (duration : Nat) : List CalendarOp :=
  if jsTruthy business.google_calendar_token && jsTruthy eventId then
    [CalendarOp.patch (eventId.getD "") newStart duration]
  else []

/-- `notifyOwner` (lines 1120-1153): sends one owner message, tagged by
the action, only when the business has a truthy `owner_phone`. -/
def notifyOwnerOps (business : Business) (action : String) : List String :=
  if jsTruthy business.owner_phone then [action] else []

/-- Result of `createAppointment`: the returned row (or `null`), the
appointment table afterwards, and the emitted side effects. -/
structure CreateResult where
  appt : Option Appointment
  store : List Appointment
  calendarOps : List CalendarOp
  notices : List String
deriving Repr, DecidableEq

/-- `createAppointment(business, customerPhone, appointmentTime, customerName)`
(lines 1227-1260).  The conflict re-check uses
`business.appointment_duration || 30`; on conflict it returns `null`
without touching anything; otherwise it inserts a `'confirmed'` row and
fans out the calendar insert and owner notification.  The caller's
`new Date(appointmentTime)` conversion is performed before this function
in the model (`appointmentTime : Int`); the insert-error branch is
unreachable in the pure model. -/
def createAppointment (store : List Appointment) (newId : String) (business : Business)
    (customerPhone : String) (appointmentTime : Int) (customerName : Option String) :
    CreateResult :=
  let start := appointmentTime
  let duration := jsOr30 business.appointment_duration
  if hasConflict store business.id start duration then
    { appt := none, store := store, calendarOps := [], notices := [] }
  else
    let appt : Appointment :=
      { id := newId, business_id := business.id, customer_phone := customerPhone,
        customer_name := customerName, appointment_time := start, duration := duration,
        status := "confirmed", google_event_id := none }
    { appt := some appt, store := store ++ [appt],
      calendarOps := addToCalendarOps business appt,
      notices := notifyOwnerOps business "new" }

/-- Result of `cancelAppointment` / `rescheduleAppointment`: the boolean
the source returns, the table afterwards, and the emitted side effects. -/
structure MutResult where
  ok : Bool
  store : List Appointment
  calendarOps : List CalendarOp
  notices : List String
deriving Repr, DecidableEq

/-- The `.eq('id', appointmentId).eq('business_id', business.id).single()`
lookup shared by cancel and reschedule.  `id` is the primary key, so
`find?` models `.single()`. -/
def findByIdAndBusiness (store : List Appointment) (appointmentId : String)
    (businessId : Nat) : Option Appointment :=
  store.find? fun a => decide (a.id = appointmentId) && decide (a.business_id = businessId)

/-- `cancelAppointment(business, appointmentId, customerPhone)`
(lines 1262-1277).  The lookup has no status filter; on a hit the update
sets `status = 'cancelled'` on the row with that id, whatever its
previous status. -/
def cancelAppointment (store : List Appointment) (business : Business)
    (appointmentId : String) (customerPhone : String) : MutResult :=
  match findByIdAndBusiness store appointmentId business.id with
  | none => { ok := false, store := store, calendarOps := [], notices := [] }
  | some appt =>
    { ok := true,
      store := store.map fun a =>
        if a.id = appointmentId then { a with status := "cancelled" } else a,
      calendarOps := deleteFromCalendarOps business appt.google_event_id,
      notices := notifyOwnerOps business "cancelled" }

/-- `rescheduleAppointment(business, appointmentId, newTime, customerPhone,
customerName)` (lines 1279-1304).  The lookup has no status filter; the
conflict check runs over all active appointments of the business —
including the appointment being moved — using the business's configured
duration; the update changes `appointment_time` and `customer_name` but
keeps the row's stored `duration`. -/
def rescheduleAppointment (store : List Appointment) (business : Business)
    (appointmentId : String) (newTime : Int) (customerPhone : String)
    (customerName : Option String) : MutResult :=
  match findByIdAndBusiness store appointmentId business.id with
  | none => { ok := false, store := store, calendarOps := [], notices := [] }
  | some old =>
    let start := newTime
    let duration := jsOr30 business.appointment_duration
    if hasConflict store business.id start duration then
      { ok := false, store := store, calendarOps := [], notices := [] }
    else
      { ok := true,
        store := store.map fun a =>
          if a.id = appointmentId then
            { a with appointment_time := start,
                     customer_name := jsOrStr customerName old.customer_name }
          else a,
        calendarOps := updateCalendarOps business old.google_event_id start duration,
        notices := notifyOwnerOps business "rescheduled" }

/-- An item of the Google Calendar `events.list` response: the event id,
its `summary`, and `start.dateTime` (absent for all-day events, which the
sync loop skips). -/
structure CalEvent where
  id : String
  summary : Option String
  startDateTime : Option Int
deriving Repr, DecidableEq

/-- The row shape produced by the reconciler's
`.select('id, google_event_id, customer_name, appointment_time')`
(lines 876-882).  The response object carries exactly the selected
columns; `customer_phone` is NOT among them, so the JS property access
`appt.customer_phone` on such a row yields `undefined`, modelled as the
field being `none` in the projection below. -/
structure SyncRow where
  id : String
  google_event_id : Option String
  customer_name : Option String
  appointment_time : Int
  customer_phone : Option String
deriving Repr, DecidableEq

/-- Projection performed by the reconciler's select: only `id`,
`google_event_id`, `customer_name` and `appointment_time` are selected,
so `customer_phone` is absent (`none`) on every fetched row. -/
def selectSyncColumns (a : Appointment) : SyncRow :=
  { id := a.id, google_event_id := a.google_event_id,
    customer_name := a.customer_name, appointment_time := a.appointment_time,
    customer_phone := none }

/-- The `calendarEventMap.get(appt.google_event_id)` lookup (lines
884-892): the map is built from the events that have a `start.dateTime`,
keyed by event id; `Map.set` makes the last occurrence of a duplicated
id win, hence the reversed search. -/
def findCalendarEvent (events : List CalEvent) (gid : Option String) : Option CalEvent :=
  ((events.filter fun e => e.startDateTime.isSome).reverse).find? fun e =>
    decide (some e.id = gid)

/-- One iteration of the reconciler's insert loop (lines 851-873): skip
events without `start.dateTime`; look up any appointment (of any
business) carrying the event id — `.single()` yields a row exactly when
one match exists — and otherwise insert a confirmed, sentinel-customer
appointment mirroring the event.  No conflict check is performed. -/
def syncInsertStep (freshId : String → String) (business : Business)
    (store : List Appointment) (event : CalEvent) : List Appointment :=
  match event.startDateTime with
  | none => store
  | some t =>
    let existing := store.filter fun a => decide (a.google_event_id = some event.id)
    if existing.length = 1 then store
    else
      store ++ [{ id := freshId event.id, business_id := business.id,
                  customer_phone := "unknown",
                  customer_name := some (jsOrStrD event.summary "תור מיומן"),
                  appointment_time := t,
                  duration := jsOr30 business.appointment_duration,
                  status := "confirmed", google_event_id := some event.id }]

/-- The reconciler's insert phase: the `for (const event of items)` fold
of `syncInsertStep` over the listed events. -/
def syncInsertPhase (freshId : String → String) (business : Business)
    (store : List Appointment) (events : List CalEvent) : List Appointment :=
  events.foldl (syncInsertStep freshId business) store

/-- One iteration of the reconciler's cancel/update loop (lines 891-915):
if the row's event id is no longer on the calendar, set the row
`cancelled`; otherwise, only when `appt.customer_phone === 'unknown'`
(which on the projected row compares `undefined` to `'unknown'`), and the
calendar time differs, update the local `appointment_time`. -/
def syncUpdateStep (events : List CalEvent) (store : List Appointment)
    (row : SyncRow) : List Appointment :=
  match findCalendarEvent events row.google_event_id with
  | none =>
    store.map fun a => if a.id = row.id then { a with status := "cancelled" } else a
  | some ev =>
    if row.customer_phone = some "unknown" then
      match ev.startDateTime with
      | some calTime =>
        if calTime ≠ row.appointment_time then
          store.map fun a => if a.id = row.id then { a with appointment_time := calTime } else a
        else store
      | none => store
    else store

/-- `syncCalendarForBusiness(business)` (lines 824-925).  Inputs: the
events the calendar API listed for the `now .. now+30d` window, the
current table, and `now`.  Guarded on a truthy token and
`calendar_connected`; first the insert phase, then the fetch of active,
future, event-linked rows of the business through the four-column
projection, then the cancel/update loop.  (The unused local
`calendarEventIds` set of the source is dead code and not modelled; the
`last_sync_time` business update is bookkeeping outside the appointment
table.) -/
def syncCalendarForBusiness (freshId : String → String) (store : List Appointment)
    (business : Business) (events : List CalEvent) (now : Int) : List Appointment :=
  if !(jsTruthy business.google_calendar_token) || !business.calendar_connected then store
  else
    let store1 := syncInsertPhase freshId business store events
    let rows := (store1.filter fun a =>
        decide (a.business_id = business.id) && isActive a &&
        decide (now ≤ a.appointment_time) && a.google_event_id.isSome).map selectSyncColumns
    rows.foldl (syncUpdateStep events) store1

/-- JS `d.setHours(h, m, 0, 0)` on a date `t`, in the model's DST-free
local timezone: the same calendar day at `h:m`.  `Int.fdiv` is floor
division, matching JS day arithmetic for times before the epoch too. -/
def setHMS (t : Int) (h m : Nat) : Int :=
  (Int.fdiv t 86400000) * 86400000 + (((h * 60 + m) * 60000 : Nat) : Int)

/-- The minute offsets produced by `for (let min = 0; min < 60; min += duration)`
for a positive step `d`: the multiples of `d` below 60. -/
def minuteSteps (d : Nat) : List Nat :=
  (List.range 60).filter fun m => decide (m % d = 0)

/-- The candidate-slot generation of `findFreeSlots` (lines 1057-1072):
for each of 14 days from `fromDate`, for each hour 9..17, each minute
offset that is a multiple of the appointment duration within the hour,
keeping only slots strictly after `now`. -/
def allSlotsFor (business : Business) (fromDate now : Int) : List Int :=
  let duration := jsOr30 business.appointment_duration
  let startDate := setHMS fromDate 9 0
  (List.range 14).flatMap fun day =>
    let checkDate := startDate + (day : Int) * 86400000
    (List.range' 9 9).flatMap fun hour =>
      (minuteSteps duration).filterMap fun min =>
        let slot := setHMS checkDate hour min
        if now < slot then some slot else none

/-- JS `getHours()` in the model's local timezone. -/
def jsGetHours (t : Int) : Nat := ((Int.fdiv t 3600000).emod 24).toNat

/-- JS `getMinutes()` in the model's local timezone. -/
def jsGetMinutes (t : Int) : Nat := ((Int.fdiv t 60000).emod 60).toNat

/-- The preferred-hour distance `Math.abs(getHours() + getMinutes()/60 - preferredHour)`
(lines 1076-1082), as an exact rational. -/
def hourDiff (t : Int) (preferredHour : ℚ) : ℚ :=
  |((jsGetHours t : ℚ) + (jsGetMinutes t : ℚ) / 60) - preferredHour|

/-- The preferred-hour comparator of lines 1076-1082 as an `a before b`
test: the JS comparator returns `a - b` when the hour distances are
within 0.01 of each other and `aHourDiff - bHourDiff` otherwise. -/
def preferredLe (preferredHour : ℚ) (a b : Int) : Bool :=
  let ad := hourDiff a preferredHour
  let bd := hourDiff b preferredHour
  if |ad - bd| < 1 / 100 then decide (a ≤ b) else decide (ad ≤ bd)

/-- Insert into a sorted list, keeping earlier elements first among
comparator-equal ones. -/
def insertLe {α : Type} (le : α → α → Bool) (x : α) : List α → List α
  | [] => [x]
  | y :: ys => if le x y then x :: y :: ys else y :: insertLe le x ys

/-- Stable insertion sort, modelling JS `Array.prototype.sort` with a
comparator (ES2019 sort is stable; the result is a permutation ordered
by the comparator, which is all the verified claims use). -/
def sortLe {α : Type} (le : α → α → Bool) : List α → List α
  | [] => []
  | x :: xs => insertLe le x (sortLe le xs)

/-- The collection loop of lines 1086-1091: walk the (sorted) candidates,
keep the conflict-free ones, stop at `count`. -/
def collectFree (store : List Appointment) (businessId : Nat) (duration : Nat) :
    Nat → List Int → List Int
  | _, [] => []
  | 0, _ :: _ => []
  | k + 1, s :: rest =>
    if hasConflict store businessId s duration then
      collectFree store businessId duration (k + 1) rest
    else s :: collectFree store businessId duration k rest

/-- `findFreeSlots(business, fromDate, count, preferredHour)`
(lines 1053-1096): generate all candidates, sort by hour proximity when a
preferred hour is given, filter through `hasConflict` up to `count`, and
re-sort the survivors chronologically. -/
def findFreeSlots (store : List Appointment) (business : Business) (fromDate : Int)
    (count : Nat) (preferredHour : Option ℚ) (now : Int) : List Int :=
  let duration := jsOr30 business.appointment_duration
  let allSlots := allSlotsFor business fromDate now
  let sorted := match preferredHour with
    | some p => sortLe (preferredLe p) allSlots
    | none => allSlots
  let slots := collectFree store business.id duration count sorted
  sortLe (fun a b => decide (a ≤ b)) slots

/-- ASCII decimal digit test (`\d` on the payloads at hand). -/
def isDigitCh (c : Char) : Bool := decide ('0' ≤ c) && decide (c ≤ '9')

/-- The character class `[a-f0-9-]` of the appointment-id patterns. -/
def isHexLowerDash (c : Char) : Bool :=
  isDigitCh c || (decide ('a' ≤ c) && decide (c ≤ 'f')) || decide (c = '-')

/-- The character class `[^|\n]` of the `NAME:` capture. -/
def isNameCh (c : Char) : Bool := !(decide (c = '|') || decide (c = '\n'))

/-- JS `\s` / `trim()` whitespace, restricted to the characters that occur
in the messages at hand (space, tab, newline, carriage return). -/
def isJsWhitespace (c : Char) : Bool :=
  decide (c = ' ') || decide (c = '\t') || decide (c = '\n') || decide (c = '\r')

/-- Consume the literal `p` from the front of `l`. -/
def dropLit : List Char → List Char → Option (List Char)
  | [], l => some l
  | _ :: _, [] => none
  | p :: ps, c :: cs => if c = p then dropLit ps cs else none

/-- Consume a single literal character. -/
def dropCh (c : Char) : List Char → Option (List Char)
  | x :: xs => if x = c then some xs else none
  | [] => none

/-- Consume exactly `n` characters satisfying `p`, returning them and the
rest (the `{n}` counted quantifier on a character class). -/
def takeCount (p : Char → Bool) : Nat → List Char → Option (List Char × List Char)
  | 0, l => some ([], l)
  | _ + 1, [] => none
  | n + 1, c :: cs =>
    if p c then (takeCount p n cs).map (fun r => (c :: r.1, r.2)) else none

/-- Match the timestamp pattern `\d{4}-\d{2}-\d{2}T\d{2}:\d{2}:\d{2}`,
returning the matched characters and the rest of the input. -/
def matchTimestamp (l : List Char) : Option (List Char × List Char) := do
  let (a, r) ← takeCount isDigitCh 4 l
  let r ← dropCh '-' r
  let (b, r) ← takeCount isDigitCh 2 r
  let r ← dropCh '-' r
  let (c, r) ← takeCount isDigitCh 2 r
  let r ← dropCh 'T' r
  let (d, r) ← takeCount isDigitCh 2 r
  let r ← dropCh ':' r
  let (e, r) ← takeCount isDigitCh 2 r
  let r ← dropCh ':' r
  let (f, r) ← takeCount isDigitCh 2 r
  pure (a ++ '-' :: b ++ '-' :: c ++ 'T' :: d ++ ':' :: e ++ ':' :: f, r)

/-- Try the regex `CONFIRM:(?:ISO_)?\[?(\d{4}-\d{2}-\d{2}T\d{2}:\d{2}:\d{2})\]?`
at the head of `l` (line 1572), returning capture group 1.  The optional
groups are greedy, so the with-`ISO_` and with-`[` alternatives are tried
first; the trailing optional `]` cannot affect the capture. -/
def confirmPayloadAt (l : List Char) : Option (List Char) :=
  match dropLit "CONFIRM:".data l with
  | none => none
  | some r =>
    let cands1 := match dropLit "ISO_".data r with
      | some r2 => [r2, r]
      | none => [r]
    cands1.findSome? fun r1 =>
      let cands2 := match dropCh '[' r1 with
        | some r2 => [r2, r1]
        | none => [r1]
      cands2.findSome? fun r2 => (matchTimestamp r2).map Prod.fst

/-- Try the regex `CANCEL:([a-f0-9-]{36})` at the head of `l` (line 1631),
returning capture group 1. -/
def cancelPayloadAt (l : List Char) : Option (List Char) :=
  (dropLit "CANCEL:".data l).bind fun r =>
    (takeCount isHexLowerDash 36 r).map Prod.fst

/-- Try the regex
`RESCHEDULE:([a-f0-9-]{36})\|NEW_TIME:(\d{4}-\d{2}-\d{2}T\d{2}:\d{2}:\d{2})`
at the head of `l` (line 1640), returning the two captures. -/
def reschedulePayloadAt (l : List Char) : Option (List Char × List Char) := do
  let r ← dropLit "RESCHEDULE:".data l
  let (rid, r) ← (takeCount isHexLowerDash 36 r)
  let r ← dropLit "|NEW_TIME:".data r
  let (ts, _) ← matchTimestamp r
  pure (rid, ts)

/-- Try the regex `NAME:([^|\n]+)` at the head of `l` (lines 1573 and
1641), returning the greedy, non-empty capture. -/
def namePayloadAt (l : List Char) : Option (List Char) :=
  (dropLit "NAME:".data l).bind fun r =>
    let run := r.takeWhile isNameCh
    if run.isEmpty then none else some run

/-- Try the regex `בשעה\s+(\d{1,2})[:\.]?(\d{2})?` at the head of `l`
(line 1582), returning the hour digits and the optional minute digits.
All groups after `\d{1,2}` are optional, and the optional separator is
not a digit, so the greedy parse needs no backtracking. -/
def saidTimeAt (l : List Char) : Option (List Char × List Char) :=
  match dropLit "בשעה".data l with
  | none => none
  | some r =>
    match r with
    | w :: r0 =>
      if isJsWhitespace w then
        let r1 := r0.dropWhile isJsWhitespace
        match r1 with
        | c1 :: rest1 =>
          if isDigitCh c1 then
            let hr := match rest1 with
              | c2 :: rest2 => if isDigitCh c2 then ([c1, c2], rest2) else ([c1], rest1)
              | [] => ([c1], ([] : List Char))
            let r3 := match hr.2 with
              | c :: rest => if c = ':' ∨ c = '.' then rest else hr.2
              | [] => hr.2
            let ms := match takeCount isDigitCh 2 r3 with
              | some (m, _) => m
              | none => []
            some (hr.1, ms)
          else none
        | [] => none
      else none
    | [] => none

/-- Regex search: the first position of `l` at which `f` matches, scanning
left to right as `String.prototype.match` does. -/
def searchAt {β : Type} (f : List Char → Option β) : List Char → Option β
  | [] => f []
  | c :: cs => (f (c :: cs)) <|> searchAt f cs

/-- JS `String.prototype.includes`. -/
def jsIncludes (s sub : String) : Bool :=
  (searchAt (fun r => dropLit sub.data r) s.data).isSome

/-- JS `String.prototype.trim` (over the whitespace set above). -/
def jsTrim (s : String) : String :=
  ((s.data.dropWhile isJsWhitespace).reverse.dropWhile isJsWhitespace).reverse.asString

/-- Numeric value of a digit string (`parseInt` on an all-digit capture). -/
def natOfDigits (l : List Char) : Nat :=
  l.foldl (fun acc c => acc * 10 + (if isDigitCh c then c.toNat - 48 else 0)) 0

/-- JS `padStart(2, '0')`. -/
def padStart2 (s : String) : String :=
  if s.length ≥ 2 then s else (String.mk (List.replicate (2 - s.length) '0')) ++ s

/-- JS `String.prototype.slice(a, b)` for `0 ≤ a ≤ b`. -/
def strSlice (s : String) (a b : Nat) : String :=
  ((s.data.drop a).take (b - a)).asString

/-- Days from the civil date (proleptic Gregorian), the standard
round-trip algorithm JS date parsing implements; day 0 is 1970-01-01. -/
def daysFromCivil (y m d : Int) : Int :=
  let y2 := if m ≤ 2 then y - 1 else y
  let era := Int.fdiv y2 400
  let yoe := y2 - era * 400
  let mp := (m + 9).emod 12
  let doy := Int.fdiv (153 * mp + 2) 5 + d - 1
  let doe := yoe * 365 + Int.fdiv yoe 4 - Int.fdiv yoe 100 + doy
  era * 146097 + doe - 719468

/-- Civil date from a day count: inverse of `daysFromCivil`, used only by
the outgoing-message formatters. -/
def civilFromDays (z : Int) : Int × Int × Int :=
  let z2 := z + 719468
  let era := Int.fdiv z2 146097
  let doe := z2 - era * 146097
  let yoe := Int.fdiv (doe - Int.fdiv doe 1460 + Int.fdiv doe 36524 - Int.fdiv doe 146096) 365
  let y := yoe + era * 400
  let doy := doe - (365 * yoe + Int.fdiv yoe 4 - Int.fdiv yoe 100)
  let mp := Int.fdiv (5 * doy + 2) 153
  let d := doy - Int.fdiv (153 * mp + 2) 5 + 1
  let m := mp + (if mp < 10 then 3 else -9)
  (if m ≤ 2 then y + 1 else y, m, d)

/-- JS `new Date(s)` for the regex-validated 19-character local ISO
timestamps `YYYY-MM-DDTHH:MM:SS` the directives carry (local timezone =
UTC in the model). -/
def parseISO (s : String) : Int :=
  let l := s.data
  let y := natOfDigits (l.take 4)
  let mo := natOfDigits ((l.drop 5).take 2)
  let da := natOfDigits ((l.drop 8).take 2)
  let h := natOfDigits ((l.drop 11).take 2)
  let mi := natOfDigits ((l.drop 14).take 2)
  let se := natOfDigits ((l.drop 17).take 2)
  daysFromCivil (y : Int) (mo : Int) (da : Int) * 86400000 +
    ((h * 3600 + mi * 60 + se : Nat) : Int) * 1000

/-- The `he-IL` long weekday names `toLocaleDateString` renders (epoch day
0 was a Thursday); only used inside outgoing message strings. -/
def hebrewWeekdays : List String :=
  ["יום ראשון", "יום שני", "יום שלישי", "יום רביעי", "יום חמישי", "יום שישי", "שבת"]

/-- The `he-IL` long month names `toLocaleDateString` renders; only used
inside outgoing message strings. -/
def hebrewMonths : List String :=
  ["ינואר", "פברואר", "מרץ", "אפריל", "מאי", "יוני", "יולי", "אוגוסט",
   "ספטמבר", "אוקטובר", "נובמבר", "דצמבר"]

/-- `toLocaleDateString('he-IL', { weekday: 'long' })` in the model. -/
def jsWeekdayHe (t : Int) : String :=
  hebrewWeekdays.getD (((Int.fdiv t 86400000) + 4).emod 7).toNat ""

/-- `toLocaleDateString('he-IL', { day: 'numeric', month: 'long' })` in
the model. -/
def jsDayMonthHe (t : Int) : String :=
  match civilFromDays (Int.fdiv t 86400000) with
  | (_, m, d) => toString d.toNat ++ " ב" ++ hebrewMonths.getD (m - 1).toNat ""

/-- `toLocaleTimeString('he-IL', { hour: '2-digit', minute: '2-digit' })`
in the model. -/
def jsTimeHe (t : Int) : String :=
  padStart2 (toString (jsGetHours t)) ++ ":" ++ padStart2 (toString (jsGetMinutes t))

/-- First match of the `CONFIRM:` payload regex over the whole reply. -/
def searchConfirmTime (s : String) : Option String :=
  (searchAt confirmPayloadAt s.data).map List.asString

/-- First match of the `CANCEL:` payload regex over the whole reply. -/
def searchCancelId (s : String) : Option String :=
  (searchAt cancelPayloadAt s.data).map List.asString

/-- First match of the `RESCHEDULE:` payload regex over the whole reply. -/
def searchRescheduleIdTime (s : String) : Option (String × String) :=
  (searchAt reschedulePayloadAt s.data).map fun r => (r.1.asString, r.2.asString)

/-- First match of the `NAME:` payload regex over the whole reply. -/
def searchName (s : String) : Option String :=
  (searchAt namePayloadAt s.data).map List.asString

/-- The placeholder-name guard of lines 1597-1600: null/empty, contains a
template literal, or is exactly the word for "name". -/
def isPlaceholderName : Option String → Bool
  | none => true
  | some s =>
    decide (s = "") || jsIncludes s "שם_מלא" || jsIncludes s "שם_הלקוח" || decide (s = "שם")

/-- The mismatch fix of lines 1582-1594: if the reply states a time in
words (`בשעה hh:mm`) that differs from the `CONFIRM:` timestamp's
hour/minute, rewrite the timestamp's time-of-day to the stated one. -/
def fixConfirmTime (aiMessage appointmentTime : String) : String :=
  match searchAt saidTimeAt aiMessage.data with
  | none => appointmentTime
  | some (hs, ms) =>
    let saidHour := padStart2 (toString (natOfDigits hs))
    let saidMin := padStart2 (if ms.isEmpty then "00" else ms.asString)
    let confirmHour := strSlice appointmentTime 11 13
    let confirmMin := strSlice appointmentTime 14 16
    if saidHour ≠ confirmHour ∨ saidMin ≠ confirmMin then
      strSlice appointmentTime 0 11 ++ saidHour ++ ":" ++ saidMin ++ ":00"
    else appointmentTime

/-- The booking-confirmed reply of lines 1615-1621. -/
def confirmSuccessMessage (business : Business) (customerName appointmentTime : String) :
    String :=
  let d := parseISO appointmentTime
  "✅ מעולה " ++ customerName ++ "! התור נקבע.\n\n" ++
  "📅 " ++ jsWeekdayHe d ++ ", " ++ jsDayMonthHe d ++ "\n" ++
  "🕐 שעה: " ++ jsTimeHe d ++ "\n" ++
  "⏱️ משך: " ++ toString (jsOr30 business.appointment_duration) ++ " דקות\n\n" ++
  "📍 " ++ business.name ++ "\n" ++
  (if jsTruthy business.owner_phone then "📞 " ++ business.owner_phone.getD "" ++ "\n\n"
   else "\n") ++
  "נתראה! 👋"

/-- A lifecycle call made by the directive interpreter, with the
arguments it passed. -/
inductive LifecycleOp where
  | create (time : String) (name : Option String)
  | cancel (id : String)
  | reschedule (id : String) (time : String) (name : Option String)
deriving Repr, DecidableEq

/-- State threaded through the directive steps: the reply text being
rewritten, the appointment table, and the lifecycle calls made so far. -/
structure InterpState where
  message : String
  store : List Appointment
  ops : List LifecycleOp
deriving Repr, DecidableEq

/-- The `CONFIRM` branch of `processWithAI` (lines 1570-1627): guarded on
textual containment of `CONFIRM:`; a keyword with no regex-shaped payload
falls through untouched; a placeholder name yields a clarification
question without calling `createAppointment`; otherwise
`createAppointment` is invoked and the reply replaced by the success or
slot-taken message. -/
def stepConfirm (business : Business) (customerPhone newId : String)
    (st : InterpState) : InterpState :=
  if jsIncludes st.message "CONFIRM:" then
    match searchConfirmTime st.message with
    | none => st
    | some t0 =>
      let customerName := (searchName st.message).map jsTrim
      let appointmentTime := fixConfirmTime st.message t0
      if isPlaceholderName customerName then
        { st with message := "מה השם המלא שלך? (שם פרטי + שם משפחה)" }
      else
        let res := createAppointment st.store newId business customerPhone
          (parseISO appointmentTime) customerName
        match res.appt with
        | some _ =>
          { message := confirmSuccessMessage business (customerName.getD "") appointmentTime,
            store := res.store,
            ops := st.ops ++ [LifecycleOp.create appointmentTime customerName] }
        | none =>
          { message := "❌ הזמן שנבחר כבר תפוס. בחר זמן אחר מהרשימה.",
            store := res.store,
            ops := st.ops ++ [LifecycleOp.create appointmentTime customerName] }
  else st

/-- The `CANCEL` branch (lines 1629-1636): guarded on containment; a
keyword with no 36-character id payload falls through; otherwise
`cancelAppointment` is invoked and the reply replaced (the source ignores
the cancel result in the message). -/
def stepCancel (business : Business) (customerPhone : String)
    (st : InterpState) : InterpState :=
  if jsIncludes st.message "CANCEL:" then
    match searchCancelId st.message with
    | none => st
    | some cid =>
      let res := cancelAppointment st.store business cid customerPhone
      { message := "✅ התור בוטל בהצלחה.", store := res.store,
        ops := st.ops ++ [LifecycleOp.cancel cid] }
  else st

/-- The `RESCHEDULE` branch (lines 1638-1646): guarded on containment; a
keyword with no regex-shaped payload falls through; otherwise
`rescheduleAppointment` is invoked and the reply set by its result. -/
def stepReschedule (business : Business) (customerPhone : String)
    (st : InterpState) : InterpState :=
  if jsIncludes st.message "RESCHEDULE:" then
    match searchRescheduleIdTime st.message with
    | none => st
    | some rt =>
      let nm := (searchName st.message).map jsTrim
      let res := rescheduleAppointment st.store business rt.1 (parseISO rt.2)
        customerPhone nm
      { message := if res.ok then "✅ התור שונה בהצלחה!" else "❌ הזמן החדש תפוס. בחר זמן אחר.",
        store := res.store,
        ops := st.ops ++ [LifecycleOp.reschedule rt.1 rt.2 nm] }
  else st

/-- The directive-interpretation phase of `processWithAI` (lines
1570-1646), applied to the reply text after the system-annotation strip:
the three branches run in order, each testing the possibly already
rewritten message. -/
def interpretDirectives (business : Business) (customerPhone newId : String)
    (store : List Appointment) (aiMessage : String) : InterpState :=
  stepReschedule business customerPhone
    (stepCancel business customerPhone
      (stepConfirm business customerPhone newId
        { message := aiMessage, store := store, ops := [] }))

/-- End of a stored appointment's half-open interval
`[start, start + duration)`, with the row's stored duration. -/
def rawEnd (a : Appointment) : Int :=
  a.appointment_time + (a.duration : Int) * 60000

/-- The spec's overlap law between two stored rows: same business, both
active, and `A.start < B.end AND B.start < A.end`. -/
def activeOverlapB (a b : Appointment) : Bool :=
  decide (a.business_id = b.business_id) && isActive a && isActive b &&
  decide (a.appointment_time < rawEnd b) && decide (b.appointment_time < rawEnd a)

/-- The spec's store invariant: no two (distinct) stored appointments of
the same business that are both active have overlapping intervals. -/
def storeInvariant : List Appointment → Bool
  | [] => true
  | a :: rest => rest.all (fun b => !activeOverlapB a b) && storeInvariant rest

/-- Minutes-of-day from an `"HH:MM"` fragment. -/
def parseHM (l : List Char) : Nat :=
  natOfDigits (l.take 2) * 60 + natOfDigits ((l.drop 3).take 2)

/-- Window of a `working_hours` column such as `"09:00-18:00"`, as
minutes of day (the part before the dash and the part after it); the
column's documented default `09:00-18:00` when no dash is present. -/
def parseWorkingHours (s : String) : Nat × Nat :=
  let l := s.data
  let a := l.takeWhile fun c => decide (c ≠ '-')
  let b := (l.dropWhile fun c => decide (c ≠ '-')).drop 1
  if b.isEmpty then (540, 1080) else (parseHM a, parseHM b)

/-- Modelled from the words of claim C8, not from the source, for
comparison with `allSlotsFor`: every multiple of the business's
appointment duration within the business's working-hours window
(start-of-day to end-of-day bound), for each of the 14 days starting at
`fromInstant`, excluding instants not strictly in the future. -/
def claimCandidateSet (business : Business) (fromInstant now : Int) : List Int :=
  let d := jsOr30 business.appointment_duration
  let w := parseWorkingHours business.working_hours
  (List.range 14).flatMap fun day =>
    let dayBase := (Int.fdiv fromInstant 86400000 + (day : Int)) * 86400000
    (List.range ((w.2 - w.1) / d + 1)).filterMap fun k =>
      let m := w.1 + k * d
      if m < w.2 then
        let slot := dayBase + ((m * 60000 : Nat) : Int)
        if now < slot then some slot else none
      else none

/-- Fixture: an assistant-booked confirmed appointment at 01:00 epoch day
0, 30 minutes, no calendar link (claim C1). -/
def apptSyncCex : Appointment :=
  ⟨"a1", 1, "+972501234567", some "דנה", 3600000, 30, "confirmed", none⟩

/-- Fixture: a calendar-connected business with 30-minute appointments
(claim C1). -/
def bizSyncCex : Business :=
  ⟨1, "מספרה", 30, "09:00-18:00", none, true, some "tok"⟩

/-- Fixture: an external calendar event at the same instant as
`apptSyncCex`, unknown to the store (claim C1). -/
def eventSyncCex : CalEvent := ⟨"evX", some "תספורת", some 3600000⟩

/-- Fixture: a confirmed appointment with stored duration 60 at epoch 0
(claim C1, reschedule half). -/
def apptLongCex : Appointment :=
  ⟨"a", 1, "p1", some "X", 0, 60, "confirmed", none⟩

/-- Fixture: a confirmed appointment at 01:30, 30 minutes (claim C1,
reschedule half). -/
def apptLaterCex : Appointment :=
  ⟨"b", 1, "p2", some "Y", 5400000, 30, "confirmed", none⟩

/-- Fixture: a business with 30-minute appointments and no calendar
(claim C1, reschedule half). -/
def bizPlainC1 : Business := ⟨1, "מכון", 30, "09:00-18:00", none, false, none⟩

/-- Fixture: a store and business for the C1 witness. -/
def apptC1w : Appointment := ⟨"x", 1, "p", some "N", 0, 30, "confirmed", none⟩

/-- Fixture: business for the C1 witness. -/
def bizC1w : Business := ⟨1, "סטודיו", 30, "09:00-18:00", none, false, none⟩

/-- Fixture: a confirmed 30-minute appointment at epoch 0 (claim C2
witness: boundary candidate starts exactly at its end). -/
def apptC2w : Appointment := ⟨"w2", 1, "p", some "N", 0, 30, "confirmed", none⟩

/-- Fixture: a confirmed three-hour appointment starting at epoch 0
(claim C3: longer than the two-hour fetch margin). -/
def apptC3cex : Appointment := ⟨"a3", 1, "p", some "N", 0, 180, "confirmed", none⟩

/-- Fixture: a confirmed 30-minute appointment at epoch 0 (claim C4). -/
def apptC4cex : Appointment := ⟨"r1", 1, "p", some "N", 0, 30, "confirmed", none⟩

/-- Fixture: business for claim C4. -/
def bizC4 : Business := ⟨1, "קליניקה", 30, "09:00-18:00", none, false, none⟩

/-- Fixture: a confirmed three-hour appointment at epoch 0 (claim C4:
longer than the two-hour fetch margin, so even its own slot escapes the
reschedule conflict check). -/
def apptC4long : Appointment := ⟨"r2", 1, "p", some "N", 0, 180, "confirmed", none⟩

/-- Fixture: a completed appointment (claim C5). -/
def apptCompleted : Appointment := ⟨"c1", 1, "p", some "N", 0, 30, "completed", none⟩

/-- Fixture: a cancelled appointment (claim C5). -/
def apptCancelled : Appointment := ⟨"c2", 1, "p", some "N", 0, 30, "cancelled", none⟩

/-- Fixture: business for claim C5. -/
def bizC5 : Business := ⟨1, "מרפאה", 30, "09:00-18:00", none, false, none⟩

/-- Fixture: the sentinel-customer, calendar-linked confirmed appointment
of the C6 failing input, locally at 01:00. -/
def apptC6 : Appointment :=
  ⟨"a1", 1, "unknown", some "פגישה", 3600000, 30, "confirmed", some "ev1"⟩

/-- Fixture: calendar-connected business (claim C6). -/
def bizC6 : Business := ⟨1, "משרד", 30, "09:00-18:00", none, true, some "tok"⟩

/-- Fixture: the same external event, externally moved to 02:00
(claim C6). -/
def eventC6 : CalEvent := ⟨"ev1", some "פגישה", some 7200000⟩

/-- Fixture: an existing confirmed appointment for the C7 witness
(the spec's conflict-rejection scenario shape: a second booking 15
minutes into it must be refused). -/
def apptC7w : Appointment := ⟨"e1", 1, "p", some "N", 0, 30, "confirmed", none⟩

/-- Fixture: business for the C7 witness. -/
def bizC7w : Business := ⟨1, "מוסך", 30, "09:00-18:00", some "0501111111", false, none⟩

/-- Fixture: business with 45-minute appointments (claim C8
counterexample; 45 does not divide 60). -/
def bizC8 : Business := ⟨1, "ספא", 45, "09:00-18:00", none, false, none⟩

/-- Fixture: business with 61-minute appointments (claim C8 witness;
one slot per hour). -/
def bizC8w : Business := ⟨1, "חדר כושר", 61, "09:00-18:00", none, false, none⟩

/-- Fixture: business for the C9 witness. -/
def bizC9 : Business := ⟨1, "מספרה", 30, "09:00-18:00", none, false, none⟩

/-- Fixture: a reply containing all three directive keywords but no
payload of the regex shapes (claim C9 witness). -/
def msgC9 : String := "טוב. CONFIRM: מחר בבוקר, CANCEL: התור הישן, RESCHEDULE: אולי"

/-- Fixture: business for the C10 witness. -/
def bizC10 : Business := ⟨1, "קוסמטיקה", 30, "09:00-18:00", none, false, none⟩

/-- Fixture: a confirmed 30-minute appointment overlapping the C3 witness
candidate. -/
def apptC3w : Appointment := ⟨"w3", 1, "p", some "N", 0, 30, "confirmed", none⟩

theorem mem_conflictWindowFetch {store : List Appointment} {bid : Nat} {s e : Int}
    {a : Appointment} :
    a ∈ conflictWindowFetch store bid s e ↔
      a ∈ store ∧ a.business_id = bid ∧ isActive a = true ∧
      s - 7200000 ≤ a.appointment_time ∧ a.appointment_time ≤ e + 7200000 := by
  simp [conflictWindowFetch, List.mem_filter, and_assoc]

theorem hasConflict_iff_exists {store : List Appointment} {bid : Nat} {t : Int} {d : Nat} :
    hasConflict store bid t d = true ↔
      ∃ a ∈ conflictWindowFetch store bid t (t + (d : Int) * 60000),
        t < a.appointment_time + (jsOr30 a.duration : Int) * 60000 ∧
        a.appointment_time < t + (d : Int) * 60000 := by
  simp [hasConflict, List.any_eq_true]

theorem hasConflict_true_of_overlap {store : List Appointment} {bid : Nat} {t : Int}
    {d : Nat} {a : Appointment}
    (hmem : a ∈ store) (hbiz : a.business_id = bid) (hact : isActive a = true)
    (hdur : jsOr30 a.duration ≤ 120)
    (h1 : t < a.appointment_time + (jsOr30 a.duration : Int) * 60000)
    (h2 : a.appointment_time < t + (d : Int) * 60000) :
    hasConflict store bid t d = true := by
  refine hasConflict_iff_exists.mpr ⟨a, ?_, h1, h2⟩
  have hd : (jsOr30 a.duration : Int) ≤ 120 := by exact_mod_cast hdur
  refine mem_conflictWindowFetch.mpr ⟨hmem, hbiz, hact, ?_, ?_⟩
  · omega
  · omega

theorem storeInvariant_append {l : List Appointment} {x : Appointment} :
    storeInvariant (l ++ [x]) = true ↔
      storeInvariant l = true ∧ ∀ a ∈ l, activeOverlapB a x = false := by
  induction l with
  | nil => simp [storeInvariant]
  | cons a rest ih =>
    have h1 : storeInvariant (a :: (rest ++ [x])) =
        ((rest ++ [x]).all (fun b => !activeOverlapB a b) && storeInvariant (rest ++ [x])) := rfl
    have h2 : storeInvariant (a :: rest) =
        (rest.all (fun b => !activeOverlapB a b) && storeInvariant rest) := rfl
    rw [List.cons_append, h1, h2]
    simp [List.all_append, List.all_eq_true, ih, Bool.not_eq_true']
    tauto

theorem foldl_preserve {β : Type} (P : List Appointment → Prop)
    (step : List Appointment → β → List Appointment)
    (hstep : ∀ s x, P s → P (step s x)) :
    ∀ (l : List β) (s : List Appointment), P s → P (List.foldl step s l)
  | [], _, h => h
  | x :: xs, s, h => foldl_preserve P step hstep xs (step s x) (hstep s x h)

theorem mem_insertLe {α : Type} (le : α → α → Bool) (x y : α) (l : List α) :
    y ∈ insertLe le x l ↔ y = x ∨ y ∈ l := by
  induction l with
  | nil => simp [insertLe]
  | cons a as ih =>
    by_cases h : le x a = true
    · simp [insertLe, h]
    · simp [insertLe, h, ih]
      tauto

theorem mem_sortLe {α : Type} (le : α → α → Bool) (x : α) (l : List α) :
    x ∈ sortLe le l ↔ x ∈ l := by
  induction l with
  | nil => simp [sortLe]
  | cons a as ih => simp [sortLe, mem_insertLe, ih]

theorem collectFree_subset (store : List Appointment) (bid dur : Nat) :
    ∀ (l : List Int) (k : Nat) (s : Int), s ∈ collectFree store bid dur k l → s ∈ l := by
  intro l
  induction l with
  | nil =>
    intro k s h
    cases k <;> simp [collectFree] at h
  | cons a rest ih =>
    intro k s h
    cases k with
    | zero => simp [collectFree] at h
    | succ n =>
      simp only [collectFree] at h
      by_cases hc : hasConflict store bid a dur = true
      · rw [if_pos hc] at h
        exact List.mem_cons_of_mem _ (ih _ _ h)
      · rw [if_neg hc] at h
        rcases List.mem_cons.mp h with h1 | h2
        · exact h1 ▸ List.mem_cons_self _ _
        · exact List.mem_cons_of_mem _ (ih _ _ h2)

theorem setHMS_day (D : Int) (off : Nat) (hoff : off < 86400000) (h m : Nat) :
    setHMS (D * 86400000 + (off : Int)) h m =
      D * 86400000 + (((h * 60 + m) * 60000 : Nat) : Int) := by
  unfold setHMS
  have hq : Int.fdiv (D * 86400000 + (off : Int)) 86400000 = D := by
    rw [Int.fdiv_eq_ediv _ (by norm_num)]
    omega
  rw [hq]

theorem allSlots_slot_eq (fromDate : Int) (day hour m : Nat) :
    setHMS (setHMS fromDate 9 0 + (day : Int) * 86400000) hour m =
      (Int.fdiv fromDate 86400000 + (day : Int)) * 86400000 +
        (((hour * 60 + m) * 60000 : Nat) : Int) := by
  have h1 : setHMS fromDate 9 0 + (day : Int) * 86400000 =
      (Int.fdiv fromDate 86400000 + (day : Int)) * 86400000 + ((32400000 : Nat) : Int) := by
    unfold setHMS
    push_cast
    ring
  rw [h1, setHMS_day _ 32400000 (by norm_num)]

theorem jsOr30_ge (d : Nat) : d ≤ jsOr30 d := by
  unfold jsOr30
  split <;> omega

/-- C2: for every business, candidate start time and positive duration,
`hasConflict` returns true iff some fetched active appointment of that
business satisfies the half-open overlap law
`candidateStart < apptEnd AND candidateEnd > apptStart`; consequently a
store in which every active appointment of the business only touches the
candidate's boundaries (ends exactly at its start or starts exactly at
its end, or lies beyond) is reported conflict-free. -/
theorem hasConflict_spec (store : List Appointment) (bid : Nat) (t : Int) (d : Nat)
    (hd : 0 < d) :
    (hasConflict store bid t d = true ↔
      ∃ a ∈ conflictWindowFetch store bid t (t + (d : Int) * 60000),
        t < a.appointment_time + (jsOr30 a.duration : Int) * 60000 ∧
        a.appointment_time < t + (d : Int) * 60000) ∧
    ((∀ a ∈ store, a.business_id = bid → isActive a = true →
        a.appointment_time + (jsOr30 a.duration : Int) * 60000 ≤ t ∨
        t + (d : Int) * 60000 ≤ a.appointment_time) →
      hasConflict store bid t d = false) := by
  refine ⟨hasConflict_iff_exists, fun h => ?_⟩
  by_contra hcf
  rw [Bool.not_eq_false] at hcf
  obtain ⟨a, hafetch, h1, h2⟩ := hasConflict_iff_exists.mp hcf
  obtain ⟨hmem, hbiz, hact, _, _⟩ := mem_conflictWindowFetch.mp hafetch
  rcases h a hmem hbiz hact with h3 | h3 <;> omega

/-- Witness for C2: a candidate starting exactly at the stored
appointment's end (boundary) is reported conflict-free. -/
theorem hasConflict_spec_witness : hasConflict [apptC2w] 1 1800000 30 = false :=
  (hasConflict_spec [apptC2w] 1 1800000 30 (by decide)).2 (by decide)

/-- Counterexample for C3: a three-hour confirmed appointment of the
business truly overlaps the candidate interval, yet it starts before the
two-hour query margin, is not fetched, and the conflict goes
unreported. -/
theorem window_misses_overlap_cex :
    apptC3cex ∈ [apptC3cex] ∧ apptC3cex.business_id = 1 ∧ isActive apptC3cex = true ∧
    0 < apptC3cex.duration ∧
    (9000000 : Int) < rawEnd apptC3cex ∧
    apptC3cex.appointment_time < 9000000 + (30 : Int) * 60000 ∧
    apptC3cex ∉ conflictWindowFetch [apptC3cex] 1 9000000 (9000000 + (30 : Int) * 60000) ∧
    hasConflict [apptC3cex] 1 9000000 30 = false := by
  decide

/-- C3 (amended): the narrowed query window cannot miss a true overlap
for appointments of duration at most 120 minutes — every stored active
appointment of the business with positive duration at most two hours
whose interval `[start, start+duration)` intersects the candidate
interval is among the appointments fetched (and hence tested). -/
theorem window_complete_for_short_durations (store : List Appointment) (bid : Nat)
    (t : Int) (d : Nat) (a : Appointment)
    (hmem : a ∈ store) (hbiz : a.business_id = bid) (hact : isActive a = true)
    (hpos : 0 < a.duration) (hdur : a.duration ≤ 120)
    (hov1 : t < rawEnd a) (hov2 : a.appointment_time < t + (d : Int) * 60000) :
    a ∈ conflictWindowFetch store bid t (t + (d : Int) * 60000) := by
  refine mem_conflictWindowFetch.mpr ⟨hmem, hbiz, hact, ?_, ?_⟩
  · have hle : (a.duration : Int) ≤ 120 := by exact_mod_cast hdur
    unfold rawEnd at hov1
    omega
  · omega

/-- Witness for the amended C3: a 30-minute appointment overlapping the
candidate is fetched. -/
theorem window_complete_for_short_durations_witness :
    apptC3w ∈ conflictWindowFetch [apptC3w] 1 900000 (900000 + (30 : Int) * 60000) :=
  window_complete_for_short_durations [apptC3w] 1 900000 30 apptC3w (by decide) (by decide)
    (by decide) (by decide) (by decide) (by decide) (by decide)

/-- Counterexample for C4, in two halves.  (a) The only stored
appointment is the one being rescheduled; the requested new time
overlaps only its own current interval (a 15-minute shift of a 30-minute
row), yet `rescheduleAppointment` fails and mutates nothing — refuting
the claim that such a reschedule succeeds.  (b) The failure is not
unconditional either: a 180-minute row shifted by 150 minutes (still
less than its duration, so the new interval overlaps its own current
one) escapes the two-hour fetch window, and the reschedule SUCCEEDS and
mutates the store — forcing the two-hour duration bound in the amended
claim. -/
theorem reschedule_self_overlap_fails_cex :
    (apptC4cex.id = "r1" ∧
     (rescheduleAppointment [apptC4cex] bizC4 "r1" 900000 "p" none).ok = false ∧
     (rescheduleAppointment [apptC4cex] bizC4 "r1" 900000 "p" none).store = [apptC4cex]) ∧
    (apptC4long.duration = 180 ∧
     (9000000 : Int) < rawEnd apptC4long ∧
     apptC4long.appointment_time < 9000000 + (30 : Int) * 60000 ∧
     (rescheduleAppointment [apptC4long] bizC4 "r2" 9000000 "p" none).ok = true ∧
     (rescheduleAppointment [apptC4long] bizC4 "r2" 9000000 "p" none).store.map
       (fun a => a.appointment_time) = [9000000]) := by
  decide

/-- C4 (amended): `rescheduleAppointment` checks conflicts at the new
time WITHOUT excluding the appointment's own current slot: whenever any
active appointment of the business whose effective duration is at most
120 minutes — in particular the appointment being moved itself, when its
duration is within two hours — overlaps the new interval, the reschedule
fails and leaves the store unchanged.  (For rows longer than two hours
even the self-overlap can escape the fetch window and the reschedule
goes through; see the counterexample's second half.) -/
theorem reschedule_rejects_self_overlap (store : List Appointment) (business : Business)
    (apptId : String) (newTime : Int) (phone : String) (newName : Option String)
    (a : Appointment)
    (hmem : a ∈ store) (hbiz : a.business_id = business.id) (hact : isActive a = true)
    (hdur : jsOr30 a.duration ≤ 120)
    (hov1 : newTime < a.appointment_time + (jsOr30 a.duration : Int) * 60000)
    (hov2 : a.appointment_time <
      newTime + (jsOr30 business.appointment_duration : Int) * 60000) :
    (rescheduleAppointment store business apptId newTime phone newName).ok = false ∧
    (rescheduleAppointment store business apptId newTime phone newName).store = store := by
  have hconf : hasConflict store business.id newTime
      (jsOr30 business.appointment_duration) = true :=
    hasConflict_true_of_overlap hmem hbiz hact hdur hov1 hov2
  unfold rescheduleAppointment
  rcases hf : findByIdAndBusiness store apptId business.id with _ | old <;>
    simp [hf, hconf]

/-- Witness for the amended C4: shifting the sole appointment by ten
minutes is refused because it overlaps its own current slot. -/
theorem reschedule_rejects_self_overlap_witness :
    (rescheduleAppointment [apptC4cex] bizC4 "r1" 600000 "p" none).ok = false ∧
    (rescheduleAppointment [apptC4cex] bizC4 "r1" 600000 "p" none).store = [apptC4cex] :=
  reschedule_rejects_self_overlap [apptC4cex] bizC4 "r1" 600000 "p" none apptC4cex
    (by decide) (by decide) (by decide) (by decide) (by decide) (by decide)

/-- C7: whenever `hasConflict` reports a conflict for the requested start
time and the business's effective duration, `createAppointment` returns
null and performs no writes: the appointment table is unchanged, no
calendar event is inserted, and no owner notification is sent. -/
theorem createAppointment_conflict_no_writes (store : List Appointment) (newId : String)
    (business : Business) (phone : String) (t : Int) (name : Option String)
    (h : hasConflict store business.id t (jsOr30 business.appointment_duration) = true) :
    createAppointment store newId business phone t name =
      { appt := none, store := store, calendarOps := [], notices := [] } := by
  simp [createAppointment, h]

/-- Witness for C7: the spec's conflict-rejection shape — an existing
confirmed 30-minute appointment and a second booking 15 minutes into it:
nothing is written. -/
theorem createAppointment_conflict_no_writes_witness :
    createAppointment [apptC7w] "n2" bizC7w "q" 900000 (some "M") =
      { appt := none, store := [apptC7w], calendarOps := [], notices := [] } :=
  createAppointment_conflict_no_writes [apptC7w] "n2" bizC7w "q" 900000 (some "M") (by decide)

/-- Counterexample for C1: (a) the reconciler's insert step performs no
conflict check, so one sync pass over a calendar event at the same
instant as an existing assistant-booked appointment leaves two
overlapping confirmed appointments; (b) `rescheduleAppointment` checks
the business's configured duration but keeps the row's stored duration,
so a successful reschedule of a 60-minute row checked as 30 minutes
lands it overlapping a neighbour. -/
theorem invariant_not_preserved_cex :
    (storeInvariant [apptSyncCex] = true ∧
     storeInvariant (syncCalendarForBusiness (fun e => "sync-" ++ e) [apptSyncCex]
       bizSyncCex [eventSyncCex] 0) = false) ∧
    (storeInvariant [apptLongCex, apptLaterCex] = true ∧
     (rescheduleAppointment [apptLongCex, apptLaterCex] bizPlainC1 "a" 3600000 "p" none).ok
       = true ∧
     storeInvariant (rescheduleAppointment [apptLongCex, apptLaterCex] bizPlainC1 "a"
       3600000 "p" none).store = false) := by
  decide

/-- C1 (amended): `createAppointment` preserves the no-active-overlap
invariant provided every active appointment of the business has
effective duration (`duration || 30`) at most 120 minutes; the
reconciler's insert step and `rescheduleAppointment` do not preserve it
in general (see the counterexample). -/
theorem createAppointment_preserves_invariant (store : List Appointment) (newId : String)
    (business : Business) (phone : String) (t : Int) (name : Option String)
    (hinv : storeInvariant store = true)
    (hdur : ∀ a ∈ store, a.business_id = business.id → isActive a = true →
      jsOr30 a.duration ≤ 120) :
    storeInvariant (createAppointment store newId business phone t name).store = true := by
  by_cases hconf : hasConflict store business.id t (jsOr30 business.appointment_duration) = true
  · simp [createAppointment, hconf, hinv]
  · have hstore : (createAppointment store newId business phone t name).store =
        store ++ [⟨newId, business.id, phone, name, t,
          jsOr30 business.appointment_duration, "confirmed", none⟩] := by
      simp [createAppointment, hconf]
    rw [hstore]
    refine storeInvariant_append.mpr ⟨hinv, fun a ha => ?_⟩
    by_contra hne
    rw [Bool.not_eq_false] at hne
    simp only [activeOverlapB, rawEnd, Bool.and_eq_true, decide_eq_true_eq] at hne
    obtain ⟨⟨⟨⟨hbz, hA⟩, _⟩, hlt1⟩, hlt2⟩ := hne
    have h1 : t < a.appointment_time + (jsOr30 a.duration : Int) * 60000 := by
      have hle : (a.duration : Int) ≤ (jsOr30 a.duration : Int) := by
        exact_mod_cast jsOr30_ge a.duration
      omega
    have h2 : a.appointment_time < t + (jsOr30 business.appointment_duration : Int) * 60000 := by
      exact_mod_cast hlt1
    exact hconf (hasConflict_true_of_overlap ha hbz hA (hdur a ha hbz hA) h1 h2)

/-- Witness for the amended C1: booking the slot that starts exactly when
the existing appointment ends keeps the store invariant. -/
theorem createAppointment_preserves_invariant_witness :
    storeInvariant (createAppointment [apptC1w] "y" bizC1w "p" 1800000 (some "M")).store
      = true :=
  createAppointment_preserves_invariant [apptC1w] "y" bizC1w "p" 1800000 (some "M")
    (by decide) (by decide)

/-- Counterexample for C5: `cancelAppointment` on a completed appointment
changes its status to cancelled (a transition out of `completed`), and
`rescheduleAppointment` on a cancelled appointment changes its start
time — the claim says both leave terminal appointments unchanged. -/
theorem terminal_status_mutated_cex :
    (apptCompleted.status = "completed" ∧
     (cancelAppointment [apptCompleted] bizC5 "c1" "p").store.map (fun a => a.status)
       = ["cancelled"]) ∧
    (apptCancelled.status = "cancelled" ∧ apptCancelled.appointment_time = 0 ∧
     (rescheduleAppointment [apptCancelled] bizC5 "c2" 3600000 "p" none).store.map
       (fun a => a.appointment_time) = [3600000]) := by
  decide

/-- C5 (amended): the cancel and reschedule lookups filter only on id and
business, with no status filter, so both operations mutate the matched
row regardless of its current status: `cancelAppointment` sets status
`cancelled` (even from `completed`), and `rescheduleAppointment` — when
the new time is conflict-free — rewrites the start time (even of a
`cancelled` or `completed` row). -/
theorem cancel_reschedule_ignore_status (store : List Appointment) (business : Business)
    (apptId phone : String) (newTime : Int) (newName : Option String) (a : Appointment)
    (hmem : a ∈ store) (hid : a.id = apptId) (hbiz : a.business_id = business.id) :
    ((cancelAppointment store business apptId phone).ok = true ∧
      ∀ b ∈ (cancelAppointment store business apptId phone).store,
        b.id = apptId → b.status = "cancelled") ∧
    (hasConflict store business.id newTime (jsOr30 business.appointment_duration) = false →
      (rescheduleAppointment store business apptId newTime phone newName).ok = true ∧
      ∀ b ∈ (rescheduleAppointment store business apptId newTime phone newName).store,
        b.id = apptId → b.appointment_time = newTime) := by
  have hfind : (findByIdAndBusiness store apptId business.id).isSome := by
    unfold findByIdAndBusiness
    exact List.find?_isSome.mpr ⟨a, hmem, by simp [hid, hbiz]⟩
  rcases hf : findByIdAndBusiness store apptId business.id with _ | old
  · rw [hf] at hfind
    simp at hfind
  refine ⟨?_, fun hconf => ?_⟩
  · unfold cancelAppointment
    rw [hf]
    refine ⟨rfl, fun b hb hbid => ?_⟩
    simp only [List.mem_map] at hb
    obtain ⟨c, hc, hcb⟩ := hb
    by_cases hcid : c.id = apptId
    · rw [if_pos hcid] at hcb
      rw [← hcb]
    · rw [if_neg hcid] at hcb
      rw [← hcb] at hbid
      exact absurd hbid hcid
  · unfold rescheduleAppointment
    rw [hf]
    simp only [hconf, Bool.false_eq_true, if_false]
    refine ⟨by simp, fun b hb hbid => ?_⟩
    simp only [List.mem_map] at hb
    obtain ⟨c, hc, hcb⟩ := hb
    by_cases hcid : c.id = apptId
    · rw [if_pos hcid] at hcb
      rw [← hcb]
    · rw [if_neg hcid] at hcb
      rw [← hcb] at hbid
      exact absurd hbid hcid

/-- Witness for the amended C5: a completed appointment is cancelled, and
a cancelled appointment is moved to a new start time. -/
theorem cancel_reschedule_ignore_status_witness :
    ((cancelAppointment [apptCompleted] bizC5 "c1" "p").ok = true ∧
      ∀ b ∈ (cancelAppointment [apptCompleted] bizC5 "c1" "p").store,
        b.id = "c1" → b.status = "cancelled") ∧
    (hasConflict [apptCompleted] bizC5.id 3600000 (jsOr30 bizC5.appointment_duration)
        = false →
      (rescheduleAppointment [apptCompleted] bizC5 "c1" 3600000 "p" none).ok = true ∧
      ∀ b ∈ (rescheduleAppointment [apptCompleted] bizC5 "c1" 3600000 "p" none).store,
        b.id = "c1" → b.appointment_time = 3600000) :=
  cancel_reschedule_ignore_status [apptCompleted] bizC5 "c1" "p" 3600000 none apptCompleted
    (by decide) (by decide) (by decide)

/-- C6 (code bug): the reconciler's select omits `customer_phone`, so the
`appt.customer_phone === 'unknown'` guard compares `undefined` with
`'unknown'` and never fires — one reconciliation pass over a
sentinel-customer (`"unknown"`) appointment whose external event still
exists at a DIFFERENT time (02:00 vs local 01:00) leaves the local start
time unchanged, contradicting the claim that sentinel-customer
appointments are time-updated. -/
theorem sync_never_updates_sentinel_time :
    apptC6.customer_phone = "unknown" ∧ apptC6.google_event_id = some "ev1" ∧
    eventC6.id = "ev1" ∧ eventC6.startDateTime = some 7200000 ∧
    apptC6.appointment_time = 3600000 ∧
    syncCalendarForBusiness (fun e => "sync-" ++ e) [apptC6] bizC6 [eventC6] 0
      = [apptC6] := by
  decide

theorem mem_allSlotsFor {business : Business} {fromDate now t : Int} :
    t ∈ allSlotsFor business fromDate now ↔
      ∃ day : Nat, day < 14 ∧ ∃ hour : Nat, 9 ≤ hour ∧ hour < 18 ∧ ∃ m : Nat, m < 60 ∧
        m % (jsOr30 business.appointment_duration) = 0 ∧ now < t ∧
        t = (Int.fdiv fromDate 86400000 + (day : Int)) * 86400000 +
            (((hour * 60 + m) * 60000 : Nat) : Int) := by
  unfold allSlotsFor minuteSteps
  simp only [List.mem_flatMap, List.mem_range, List.mem_range'_1, List.mem_filterMap,
    List.mem_filter, Option.ite_none_right_eq_some, Option.some.injEq, decide_eq_true_eq,
    allSlots_slot_eq]
  constructor
  · rintro ⟨day, hday, hour, ⟨h9, h18⟩, m, ⟨hm60, hmd⟩, hlt, heq⟩
    exact ⟨day, hday, hour, h9, by omega, m, hm60, hmd, heq ▸ hlt, heq.symm⟩
  · rintro ⟨day, hday, hour, h9, h18, m, hm60, hmd, hlt, heq⟩
    exact ⟨day, hday, hour, ⟨h9, by omega⟩, m, ⟨hm60, hmd⟩, heq ▸ hlt, heq.symm⟩

/-- Counterexample for C8: with a 45-minute appointment duration and the
default working hours, the claim's candidate set (every multiple of the
duration across the working window) contains 10:30 on day 0, but the
source's generation (multiples of the duration within each hour) does
not. -/
theorem findFreeSlots_candidate_set_cex :
    (37800000 : Int) ∈ claimCandidateSet bizC8 0 (-1) ∧
    (37800000 : Int) ∉ allSlotsFor bizC8 0 (-1) := by
  decide

/-- C8 (amended): the candidate set `findFreeSlots` generates is exactly,
for each of the 14 days starting at `fromInstant` and each hour 09:00 to
17:00, the slots at the minute offsets within the hour that are
multiples of the business's appointment duration (0, d, 2d, … below 60),
excluding instants not strictly in the future; and every returned slot
belongs to this candidate set. -/
theorem findFreeSlots_candidates_spec (store : List Appointment) (business : Business)
    (fromDate : Int) (count : Nat) (pref : Option ℚ) (now : Int) :
    (∀ t : Int, t ∈ allSlotsFor business fromDate now ↔
      ∃ day : Nat, day < 14 ∧ ∃ hour : Nat, 9 ≤ hour ∧ hour < 18 ∧ ∃ m : Nat, m < 60 ∧
        m % (jsOr30 business.appointment_duration) = 0 ∧ now < t ∧
        t = (Int.fdiv fromDate 86400000 + (day : Int)) * 86400000 +
            (((hour * 60 + m) * 60000 : Nat) : Int)) ∧
    (∀ s ∈ findFreeSlots store business fromDate count pref now,
      s ∈ allSlotsFor business fromDate now) := by
  refine ⟨fun t => mem_allSlotsFor, fun s hs => ?_⟩
  unfold findFreeSlots at hs
  rw [mem_sortLe] at hs
  have hs2 := collectFree_subset _ _ _ _ _ _ hs
  cases pref with
  | none => exact hs2
  | some p =>
    simp only at hs2
    rw [mem_sortLe] at hs2
    exact hs2

/-- Witness for the amended C8: with a 61-minute duration the first
generated slot, day 0 at 09:00, is returned and is a candidate. -/
theorem findFreeSlots_candidates_spec_witness :
    (32400000 : Int) ∈ allSlotsFor bizC8w 0 (-1) :=
  (findFreeSlots_candidates_spec [] bizC8w 0 1 none (-1)).2 32400000 (by decide)

theorem stepConfirm_skip {business : Business} {customerPhone newId : String}
    {st : InterpState} (h : searchConfirmTime st.message = none) :
    stepConfirm business customerPhone newId st = st := by
  unfold stepConfirm
  rw [h]
  split <;> rfl

theorem stepCancel_skip {business : Business} {customerPhone : String}
    {st : InterpState} (h : searchCancelId st.message = none) :
    stepCancel business customerPhone st = st := by
  unfold stepCancel
  rw [h]
  split <;> rfl

theorem stepReschedule_skip {business : Business} {customerPhone : String}
    {st : InterpState} (h : searchRescheduleIdTime st.message = none) :
    stepReschedule business customerPhone st = st := by
  unfold stepReschedule
  rw [h]
  split <;> rfl

/-- C9: an assistant reply that contains a directive keyword but on which
none of the three payload regexes match is silently ignored by the
directive interpreter: it invokes no lifecycle operation and the
appointment store is unchanged (and, being a total function, it cannot
crash). -/
theorem malformed_directives_ignored (business : Business) (customerPhone newId : String)
    (store : List Appointment) (msg : String)
    (hkey : jsIncludes msg "CONFIRM:" = true ∨ jsIncludes msg "CANCEL:" = true ∨
      jsIncludes msg "RESCHEDULE:" = true)
    (hc : searchConfirmTime msg = none)
    (hx : searchCancelId msg = none)
    (hr : searchRescheduleIdTime msg = none) :
    (interpretDirectives business customerPhone newId store msg).ops = [] ∧
    (interpretDirectives business customerPhone newId store msg).store = store := by
  unfold interpretDirectives
  rw [stepConfirm_skip hc, stepCancel_skip hx, stepReschedule_skip hr]
  exact ⟨rfl, rfl⟩

/-- Witness for C9: a reply containing all three keywords with prose
instead of payloads triggers no lifecycle call and no store change. -/
theorem malformed_directives_ignored_witness :
    (interpretDirectives bizC9 "p" "n" [] msgC9).ops = [] ∧
    (interpretDirectives bizC9 "p" "n" [] msgC9).store = [] :=
  malformed_directives_ignored bizC9 "p" "n" [] msgC9 (Or.inl (by decide))
    (by decide) (by decide) (by decide)

theorem syncInsertStep_mem {freshId : String → String} {business : Business}
    {s : List Appointment} {e : CalEvent} {x : Appointment}
    (hx : x ∈ syncInsertStep freshId business s e) :
    x ∈ s ∨ x.status = "confirmed" := by
  unfold syncInsertStep at hx
  cases hdt : e.startDateTime with
  | none =>
    rw [hdt] at hx
    exact Or.inl hx
  | some tt =>
    rw [hdt] at hx
    dsimp only at hx
    by_cases hlen : (s.filter fun a => decide (a.google_event_id = some e.id)).length = 1
    · rw [if_pos hlen] at hx
      exact Or.inl hx
    · rw [if_neg hlen] at hx
      rcases List.mem_append.mp hx with h | h
      · exact Or.inl h
      · rw [List.mem_singleton] at h
        rw [h]
        exact Or.inr rfl

theorem syncInsertPhase_confirmed (freshId : String → String) (business : Business)
    (store : List Appointment) (events : List CalEvent) :
    ∀ x ∈ syncInsertPhase freshId business store events,
      x ∈ store ∨ x.status = "confirmed" := by
  unfold syncInsertPhase
  refine foldl_preserve (fun s' => ∀ x ∈ s', x ∈ store ∨ x.status = "confirmed") _ ?_
    events store (fun x hx => Or.inl hx)
  intro s e hP x hx
  rcases syncInsertStep_mem hx with h | h
  · exact hP x h
  · exact Or.inr h

theorem syncUpdateStep_pending {events : List CalEvent} {s : List Appointment}
    {row : SyncRow} {x : Appointment} (hx : x ∈ syncUpdateStep events s row)
    (hp : x.status = "pending") :
    ∃ c ∈ s, c.id = x.id ∧ c.status = "pending" := by
  unfold syncUpdateStep at hx
  cases hfe : findCalendarEvent events row.google_event_id with
  | none =>
    rw [hfe] at hx
    obtain ⟨c, hc, hcx⟩ := List.mem_map.mp hx
    by_cases hcid : c.id = row.id
    · rw [if_pos hcid] at hcx
      rw [← hcx] at hp
      simp at hp
    · rw [if_neg hcid] at hcx
      exact ⟨c, hc, by rw [hcx], by rw [hcx]; exact hp⟩
  | some ev =>
    rw [hfe] at hx
    dsimp only at hx
    by_cases hphone : row.customer_phone = some "unknown"
    · rw [if_pos hphone] at hx
      cases hdt : ev.startDateTime with
      | none =>
        rw [hdt] at hx
        exact ⟨x, hx, rfl, hp⟩
      | some ct =>
        rw [hdt] at hx
        dsimp only at hx
        by_cases hne : ct ≠ row.appointment_time
        · rw [if_pos hne] at hx
          obtain ⟨c, hc, hcx⟩ := List.mem_map.mp hx
          by_cases hcid : c.id = row.id
          · rw [if_pos hcid] at hcx
            refine ⟨c, hc, ?_, ?_⟩
            · rw [← hcx]
            · rw [← hcx] at hp
              exact hp
          · rw [if_neg hcid] at hcx
            exact ⟨c, hc, by rw [hcx], by rw [hcx]; exact hp⟩
        · rw [if_neg hne] at hx
          exact ⟨x, hx, rfl, hp⟩
    · rw [if_neg hphone] at hx
      exact ⟨x, hx, rfl, hp⟩

theorem syncUpdateFold_pending (events : List CalEvent) (rows : List SyncRow)
    (s store : List Appointment)
    (hbase : ∀ y ∈ s, y.status = "pending" →
      ∃ b ∈ store, b.id = y.id ∧ b.status = "pending") :
    ∀ x ∈ rows.foldl (syncUpdateStep events) s,
      x.status = "pending" → ∃ b ∈ store, b.id = x.id ∧ b.status = "pending" := by
  refine foldl_preserve
    (fun s' => ∀ y ∈ s', y.status = "pending" →
      ∃ b ∈ store, b.id = y.id ∧ b.status = "pending")
    (syncUpdateStep events) ?_ rows s hbase
  intro s' row hP x hx hp
  obtain ⟨c, hc, hcid, hcp⟩ := syncUpdateStep_pending hx hp
  obtain ⟨b, hb, hbid, hbp⟩ := hP c hc hcp
  exact ⟨b, hb, hbid.trans hcid, hbp⟩

theorem sync_pending_from (freshId : String → String) (store : List Appointment)
    (business : Business) (events : List CalEvent) (now : Int) :
    ∀ x ∈ syncCalendarForBusiness freshId store business events now,
      x.status = "pending" → ∃ b ∈ store, b.id = x.id ∧ b.status = "pending" := by
  have hins : ∀ y ∈ syncInsertPhase freshId business store events,
      y.status = "pending" → ∃ b ∈ store, b.id = y.id ∧ b.status = "pending" := by
    intro y hy hyp
    rcases syncInsertPhase_confirmed freshId business store events y hy with h | h
    · exact ⟨y, h, rfl, hyp⟩
    · rw [h] at hyp
      simp at hyp
  unfold syncCalendarForBusiness
  split
  · intro x hx hp
    exact ⟨x, hx, rfl, hp⟩
  · intro x hx hp
    exact syncUpdateFold_pending events _ _ store hins x hx hp

/-- C10: every appointment row the core inserts is inserted with status
`confirmed` — rows new to the store after `createAppointment` or the
reconciler's insert phase are `confirmed` — and no core writer
(`syncCalendarForBusiness`, `cancelAppointment`,
`rescheduleAppointment`) ever writes status `pending`: any pending row
after the operation descends from a pending row with the same id already
in the store. -/
theorem core_inserts_confirmed :
    (∀ (store : List Appointment) (newId : String) (business : Business) (phone : String)
        (t : Int) (name : Option String),
      ∀ x ∈ (createAppointment store newId business phone t name).store,
        x ∈ store ∨ x.status = "confirmed") ∧
    (∀ (freshId : String → String) (business : Business) (store : List Appointment)
        (events : List CalEvent),
      ∀ x ∈ syncInsertPhase freshId business store events,
        x ∈ store ∨ x.status = "confirmed") ∧
    (∀ (freshId : String → String) (store : List Appointment) (business : Business)
        (events : List CalEvent) (now : Int),
      ∀ x ∈ syncCalendarForBusiness freshId store business events now,
        x.status = "pending" → ∃ b ∈ store, b.id = x.id ∧ b.status = "pending") ∧
    (∀ (store : List Appointment) (business : Business) (apptId phone : String),
      ∀ x ∈ (cancelAppointment store business apptId phone).store,
        x.status = "pending" → ∃ b ∈ store, b.id = x.id ∧ b.status = "pending") ∧
    (∀ (store : List Appointment) (business : Business) (apptId : String) (newTime : Int)
        (phone : String) (newName : Option String),
      ∀ x ∈ (rescheduleAppointment store business apptId newTime phone newName).store,
        x.status = "pending" → ∃ b ∈ store, b.id = x.id ∧ b.status = "pending") := by
  refine ⟨?_, ?_, ?_, ?_, ?_⟩
  · intro store newId business phone t name x hx
    by_cases hconf :
        hasConflict store business.id t (jsOr30 business.appointment_duration) = true
    · simp only [createAppointment, hconf, if_true] at hx
      exact Or.inl hx
    · have hstore : (createAppointment store newId business phone t name).store =
          store ++ [⟨newId, business.id, phone, name, t,
            jsOr30 business.appointment_duration, "confirmed", none⟩] := by
        simp [createAppointment, hconf]
      rw [hstore] at hx
      rcases List.mem_append.mp hx with h | h
      · exact Or.inl h
      · rw [List.mem_singleton] at h
        rw [h]
        exact Or.inr rfl
  · exact syncInsertPhase_confirmed
  · exact sync_pending_from
  · intro store business apptId phone x hx hp
    unfold cancelAppointment at hx
    rcases hf : findByIdAndBusiness store apptId business.id with _ | old
    · rw [hf] at hx
      exact ⟨x, hx, rfl, hp⟩
    · rw [hf] at hx
      dsimp only at hx
      obtain ⟨c, hc, hcx⟩ := List.mem_map.mp hx
      by_cases hcid : c.id = apptId
      · rw [if_pos hcid] at hcx
        rw [← hcx] at hp
        simp at hp
      · rw [if_neg hcid] at hcx
        exact ⟨c, hc, by rw [hcx], by rw [hcx]; exact hp⟩
  · intro store business apptId newTime phone newName x hx hp
    unfold rescheduleAppointment at hx
    rcases hf : findByIdAndBusiness store apptId business.id with _ | old
    · rw [hf] at hx
      exact ⟨x, hx, rfl, hp⟩
    · rw [hf] at hx
      dsimp only at hx
      by_cases hconf :
          hasConflict store business.id newTime (jsOr30 business.appointment_duration) = true
      · rw [if_pos hconf] at hx
        exact ⟨x, hx, rfl, hp⟩
      · rw [if_neg hconf] at hx
        dsimp only at hx
        obtain ⟨c, hc, hcx⟩ := List.mem_map.mp hx
        by_cases hcid : c.id = apptId
        · rw [if_pos hcid] at hcx
          refine ⟨c, hc, by rw [← hcx], ?_⟩
          rw [← hcx] at hp
          exact hp
        · rw [if_neg hcid] at hcx
          exact ⟨c, hc, by rw [hcx], by rw [hcx]; exact hp⟩

/-- Witness for C10: the row created into an empty store is confirmed. -/
theorem core_inserts_confirmed_witness :
    (⟨"w10", 1, "p", some "N", 0, 30, "confirmed", none⟩ : Appointment)
        ∈ ([] : List Appointment) ∨
    (⟨"w10", 1, "p", some "N", 0, 30, "confirmed", none⟩ : Appointment).status
        = "confirmed" :=
  core_inserts_confirmed.1 [] "w10" bizC10 "p" 0 (some "N") _ (by decide)
